import Mathlib

/-!
Shallow embedding of `src/server.py` (gRPC demo server: `CalculatorServicer`
and `StatsServicer`).

Each RPC handler is modelled as a pure function from its request fields to
an `Outcome`: a normal reply, a `ctx.abort(code, message)` with a status
code and message, or an uncaught native error propagating out of the
handler.  Python integers are unbounded, so `Int` models them exactly;
Python `//` and `%` are floor division and floor modulus, i.e. `Int.fdiv`
and `Int.fmod`.  The server-streaming `Factorial` handler is modelled by
the finite list of elements it yields, in emission order.  Sample values
for `DescriptiveStats` are modelled as exact rationals: every Python float
is a rational number, and `statistics.mean` / `statistics.variance`
compute exactly over `Fraction`s before the final conversion back to
float.
-/

/-- Status codes of `grpc.StatusCode` used or mentioned by the server. -/
inductive StatusCode where
  | invalidArgument
  | deadlineExceeded
  | internalError
  deriving DecidableEq

/-- Result of running a handler: a reply message, a `ctx.abort` (which
raises, so nothing after it executes), or an uncaught native Python error
escaping the handler. -/
inductive Outcome (α : Type) where
  | reply (a : α)
  | abort (code : StatusCode) (message : String)
  | nativeError (description : String)
  deriving DecidableEq

/-- `BinaryReply` message: `result: int`. -/
structure BinaryReply where
  result : Int
  deriving DecidableEq

/-- `DivideReply` message: `quotient: int`, `remainder: int`. -/
structure DivideReply where
  quotient : Int
  remainder : Int
  deriving DecidableEq

/-- `FactorialStep` message: `step: int`, `accumulator: int`. -/
structure FactorialStep where
  step : Int
  accumulator : Int
  deriving DecidableEq

/-- `StatsReply` message: `mean`, `variance`. -/
structure StatsReply where
  mean : ℚ
  variance : ℚ
  deriving DecidableEq

namespace CalculatorServicer

/-- `Add`: `return pb.BinaryReply(result=req.x + req.y)`. -/
def Add (x y : Int) : Outcome BinaryReply :=
  .reply ⟨x + y⟩

/-- `Subtract`: `return pb.BinaryReply(result=req.x - req.y)`. -/
def Subtract (x y : Int) : Outcome BinaryReply :=
  .reply ⟨x - y⟩

/-- `Multiply`: `return pb.BinaryReply(result=req.x * req.y)`. -/
def Multiply (x y : Int) : Outcome BinaryReply :=
  .reply ⟨x * y⟩

/-- `Power`: `return pb.BinaryReply(result=pow(req.base, req.exponent))`.
The handler has no validation branch.  For `exponent ≥ 0`, Python `pow`
on ints is exact integer exponentiation.  For `exponent < 0`, Python
`pow` leaves the integer domain (it returns a float, or raises
`ZeroDivisionError` when `base = 0`), so the handler never produces an
exact integer reply there and never calls `ctx.abort`; that branch is
collapsed to a `nativeError` marker. -/
def Power (base exponent : Int) : Outcome BinaryReply :=
  if 0 ≤ exponent then .reply ⟨base ^ exponent.toNat⟩
  else .nativeError "pow with negative exponent leaves the integer domain"

/-- `Divide`: aborts with `INVALID_ARGUMENT` and message
`"Division by zero is not allowed"` when `y == 0`, otherwise returns
`quotient = x // y` and `remainder = x % y` (Python floor division). -/
def Divide (x y : Int) : Outcome DivideReply :=
  if y = 0 then .abort .invalidArgument "Division by zero is not allowed"
  else .reply ⟨Int.fdiv x y, Int.fmod x y⟩

/-- Body of the `Factorial` loop: `acc = acc * k if k else 1`. -/
def factorialBody (acc : Int) (k : Nat) : Int :=
  if k = 0 then 1 else acc * k

/-- The elements yielded by the `Factorial` loop over the given list of
loop indices, threading the accumulator exactly as the source does:
update `acc` by `factorialBody`, then yield `(k, acc)`. -/
def factorialEmit : List Nat → Int → List FactorialStep
  | [], _ => []
  | k :: ks, acc =>
      ⟨(k : Int), factorialBody acc k⟩ :: factorialEmit ks (factorialBody acc k)

/-- `Factorial`: aborts with `INVALID_ARGUMENT` when `n < 0`, before any
element is yielded; otherwise yields one element per `k in range(0, n+1)`
with `acc = 1` initially.  The inter-element `time.sleep` is pacing only
and does not affect the emitted values. -/
def Factorial (n : Int) : Outcome (List FactorialStep) :=
  if n < 0 then .abort .invalidArgument "Negative factorial is undefined"
  else .reply (factorialEmit (List.range (n.toNat + 1)) 1)

end CalculatorServicer

namespace StatsServicer

/-- `statistics.mean(vals)`: the exact arithmetic mean (the Python
implementation sums via `Fraction`, exactly). -/
def st_mean (vals : List ℚ) : ℚ :=
  vals.sum / (vals.length : ℚ)

/-- Sum of squared deviations as computed by `statistics._ss`: the exact
sum of `(x - c)^2` minus the correction term `(Σ (x - c))^2 / n`, where
`c` is the mean.  In exact arithmetic the correction term vanishes. -/
def st_sumSquaredDeviations (vals : List ℚ) : ℚ :=
  (vals.map (fun x => (x - st_mean vals) ^ 2)).sum -
    ((vals.map (fun x => x - st_mean vals)).sum) ^ 2 / (vals.length : ℚ)

/-- `statistics.variance(vals)`: sample variance with denominator
`n - 1`. -/
def st_variance (vals : List ℚ) : ℚ :=
  st_sumSquaredDeviations vals / ((vals.length : ℚ) - 1)

/-- `DescriptiveStats`: collects the whole input stream into `vals`;
aborts with `INVALID_ARGUMENT` and message `"No values supplied"` when no
values arrived; otherwise replies once with
`mean = statistics.mean(vals)` and
`variance = statistics.variance(vals) if len(vals) > 1 else 0.0`. -/
def DescriptiveStats (vals : List ℚ) : Outcome StatsReply :=
  if vals = [] then .abort .invalidArgument "No values supplied"
  else .reply ⟨st_mean vals, if 1 < vals.length then st_variance vals else 0⟩

end StatsServicer

/-! ### Theorems -/

/-- C8: `Add`, `Subtract` and `Multiply` return exactly `x + y`, `x - y`
and `x * y`, always succeeding (no abort, no error branch). -/
theorem unary_arithmetic_exact (x y : Int) :
    CalculatorServicer.Add x y = Outcome.reply ⟨x + y⟩ ∧
    CalculatorServicer.Subtract x y = Outcome.reply ⟨x - y⟩ ∧
    CalculatorServicer.Multiply x y = Outcome.reply ⟨x * y⟩ :=
  ⟨rfl, rfl, rfl⟩

/-- C7: `DescriptiveStats` on an empty sample stream aborts with an
`INVALID_ARGUMENT` status and produces no reply. -/
theorem descriptiveStats_empty_aborts :
    StatsServicer.DescriptiveStats [] =
      Outcome.abort StatusCode.invalidArgument "No values supplied" :=
  rfl

/-- C9: `Factorial` with a negative argument aborts with
`INVALID_ARGUMENT` before yielding any element. -/
theorem factorial_negative_aborts (n : Int) (h : n < 0) :
    CalculatorServicer.Factorial n =
      Outcome.abort StatusCode.invalidArgument "Negative factorial is undefined" := by
  simp [CalculatorServicer.Factorial, h]

/-- Witness for `factorial_negative_aborts` at `n = -1`. -/
theorem factorial_negative_aborts_witness :
    (-1 : Int) < 0 ∧
      CalculatorServicer.Factorial (-1) =
        Outcome.abort StatusCode.invalidArgument "Negative factorial is undefined" :=
  ⟨by decide, factorial_negative_aborts (-1) (by decide)⟩

/-- C5: for a non-negative exponent, `Power` replies with the exact
integer power `base ^ exponent`. -/
theorem power_nonneg_exact (base exponent : Int) (h : 0 ≤ exponent) :
    CalculatorServicer.Power base exponent =
      Outcome.reply ⟨base ^ exponent.toNat⟩ := by
  simp [CalculatorServicer.Power, h]

/-- Witness for `power_nonneg_exact` at `base = 2`, `exponent = 5`. -/
theorem power_nonneg_exact_witness :
    (0 : Int) ≤ 5 ∧
      CalculatorServicer.Power 2 5 = Outcome.reply ⟨(2 : Int) ^ (5 : Int).toNat⟩ ∧
      CalculatorServicer.Power 2 5 = Outcome.reply ⟨32⟩ :=
  ⟨by decide, power_nonneg_exact 2 5 (by decide), by decide⟩

/-- C4 (code behaviour at the failing input): `Power(2, -1)` does not
abort with any status code; the handler computes native `pow`, which
leaves the integer domain for a negative exponent.  The spec's mandated
`INVALID_ARGUMENT` rejection is absent from the code. -/
theorem power_negative_no_abort :
    CalculatorServicer.Power 2 (-1) =
      Outcome.nativeError "pow with negative exponent leaves the integer domain" ∧
    ∀ code message, CalculatorServicer.Power 2 (-1) ≠ Outcome.abort code message := by
  refine ⟨rfl, fun code message h => ?_⟩
  simp [CalculatorServicer.Power] at h

/-- C3 (counterexample to the stated message): `Divide(1, 0)` aborts with
`INVALID_ARGUMENT`, but its message is `"Division by zero is not
allowed"`, not `"division by zero"`. -/
theorem divide_by_zero_message_counterexample :
    CalculatorServicer.Divide 1 0 =
      Outcome.abort StatusCode.invalidArgument "Division by zero is not allowed" ∧
    "Division by zero is not allowed" ≠ "division by zero" :=
  ⟨rfl, by decide⟩

/-- C3 (amended): for every `x`, `Divide(x, 0)` aborts with
`INVALID_ARGUMENT` carrying the message
`"Division by zero is not allowed"`, before any reply is constructed. -/
theorem divide_by_zero_aborts (x : Int) :
    CalculatorServicer.Divide x 0 =
      Outcome.abort StatusCode.invalidArgument "Division by zero is not allowed" := by
  simp [CalculatorServicer.Divide]

/-- Floor modulus by a negative divisor is bounded by the divisor:
`y < x.fmod y ≤ 0` when `y < 0` (Python `%` sign convention). -/
theorem fmod_neg_bounds (x y : Int) (hy : y < 0) :
    y < Int.fmod x y ∧ Int.fmod x y ≤ 0 := by
  cases y with
  | ofNat k =>
    rw [Int.ofNat_eq_coe] at hy
    exact absurd hy (by omega)
  | negSucc n =>
    cases x with
    | ofNat m =>
      cases m with
      | zero =>
        have hred : Int.fmod (Int.ofNat 0) (Int.negSucc n) = 0 := rfl
        rw [hred, Int.negSucc_eq]
        omega
      | succ m =>
        have hred : Int.fmod (Int.ofNat (m + 1)) (Int.negSucc n) =
            Int.subNatNat (m % (n + 1)) n := rfl
        have hm : m % (n + 1) < n + 1 := Nat.mod_lt _ (Nat.succ_pos n)
        rw [hred, Int.subNatNat_eq_coe, Int.negSucc_eq]
        omega
    | negSucc m =>
      have hred : Int.fmod (Int.negSucc m) (Int.negSucc n) =
          -Int.ofNat ((m + 1) % (n + 1)) := rfl
      have hm : (m + 1) % (n + 1) < n + 1 := Nat.mod_lt _ (Nat.succ_pos n)
      rw [hred, Int.ofNat_eq_coe, Int.negSucc_eq]
      omega

/-- C2: for `y ≠ 0`, `Divide` replies with a quotient and remainder
satisfying `quotient * y + remainder = x`, and the remainder follows the
floor-division sign convention: it is zero or has the sign of `y`. -/
theorem divide_identity (x y : Int) (hy : y ≠ 0) :
    ∃ rep : DivideReply,
      CalculatorServicer.Divide x y = Outcome.reply rep ∧
      rep.quotient * y + rep.remainder = x ∧
      (rep.remainder = 0 ∨ (0 < rep.remainder ↔ 0 < y)) := by
  refine ⟨⟨Int.fdiv x y, Int.fmod x y⟩, ?_, ?_, ?_⟩
  · simp [CalculatorServicer.Divide, hy]
  · show Int.fdiv x y * y + Int.fmod x y = x
    rw [Int.mul_comm]
    exact Int.fdiv_add_fmod x y
  · show Int.fmod x y = 0 ∨ (0 < Int.fmod x y ↔ 0 < y)
    rcases hy.lt_or_lt with hneg | hpos
    · obtain ⟨h1, h2⟩ := fmod_neg_bounds x y hneg
      rcases h2.lt_or_eq with hlt | heq
      · exact Or.inr (iff_of_false (by omega) (by omega))
      · exact Or.inl heq
    · have h0 : 0 ≤ Int.fmod x y := Int.fmod_nonneg' x hpos
      rcases h0.lt_or_eq with hlt | heq
      · exact Or.inr (iff_of_true hlt hpos)
      · exact Or.inl heq.symm

/-- Witness for `divide_identity` at `x = 7`, `y = 3`. -/
theorem divide_identity_witness :
    (3 : Int) ≠ 0 ∧
      ∃ rep : DivideReply,
        CalculatorServicer.Divide 7 3 = Outcome.reply rep ∧
        rep.quotient * 3 + rep.remainder = 7 ∧
        (rep.remainder = 0 ∨ (0 < rep.remainder ↔ (0 : Int) < 3)) :=
  ⟨by decide, divide_identity 7 3 (by decide)⟩

/-- C10: for `y ≠ 0`, the remainder returned by `Divide` is bounded by
the divisor: `0 ≤ r < y` when `y > 0`, and `y < r ≤ 0` when `y < 0`. -/
theorem divide_remainder_bounds (x y : Int) (hy : y ≠ 0) :
    ∃ rep : DivideReply,
      CalculatorServicer.Divide x y = Outcome.reply rep ∧
      (0 < y → 0 ≤ rep.remainder ∧ rep.remainder < y) ∧
      (y < 0 → y < rep.remainder ∧ rep.remainder ≤ 0) := by
  refine ⟨⟨Int.fdiv x y, Int.fmod x y⟩, ?_, ?_, ?_⟩
  · simp [CalculatorServicer.Divide, hy]
  · exact fun hpos => ⟨Int.fmod_nonneg' x hpos, Int.fmod_lt_of_pos x hpos⟩
  · exact fun hneg => fmod_neg_bounds x y hneg

/-- Witness for `divide_remainder_bounds` at `x = 7`, `y = -3`. -/
theorem divide_remainder_bounds_witness :
    (-3 : Int) ≠ 0 ∧
      ∃ rep : DivideReply,
        CalculatorServicer.Divide 7 (-3) = Outcome.reply rep ∧
        ((0 : Int) < -3 → 0 ≤ rep.remainder ∧ rep.remainder < -3) ∧
        ((-3 : Int) < 0 → -3 < rep.remainder ∧ rep.remainder ≤ 0) :=
  ⟨by decide, divide_remainder_bounds 7 (-3) (by decide)⟩

/-- Accumulator invariant of the `Factorial` loop: starting a tail of the
loop at index `a + 1` with accumulator `a!` yields `(k, k!)` for every
remaining index `k`. -/
theorem factorialEmit_range_aux (m : Nat) :
    ∀ a : Nat,
      CalculatorServicer.factorialEmit (List.range' (a + 1) m) ((a.factorial : Int)) =
        (List.range' (a + 1) m).map (fun k => ⟨(k : Int), (k.factorial : Int)⟩) := by
  induction m with
  | zero => intro a; rfl
  | succ m ih =>
    intro a
    rw [List.range'_succ]
    have hbody : CalculatorServicer.factorialBody ((a.factorial : Int)) (a + 1) =
        (((a + 1).factorial : Nat) : Int) := by
      show (if a + 1 = 0 then 1 else (a.factorial : Int) * ((a + 1 : Nat) : Int)) =
        (((a + 1).factorial : Nat) : Int)
      rw [if_neg (Nat.succ_ne_zero a), Nat.factorial_succ]
      push_cast
      ring
    simp only [CalculatorServicer.factorialEmit, hbody, List.map_cons]
    exact congrArg (List.cons _) (ih (a + 1))

/-- The `Factorial` loop over `range m` with initial accumulator `1`
yields exactly the pairs `(k, k!)` for `k = 0, …, m - 1`. -/
theorem factorialEmit_range (m : Nat) :
    CalculatorServicer.factorialEmit (List.range m) 1 =
      (List.range m).map (fun k => ⟨(k : Int), (k.factorial : Int)⟩) := by
  cases m with
  | zero => rfl
  | succ m =>
    rw [List.range_eq_range', List.range'_succ]
    simp only [CalculatorServicer.factorialEmit, List.map_cons]
    refine congrArg₂ List.cons rfl ?_
    exact factorialEmit_range_aux m 0

/-- C1: for `n ≥ 0`, `Factorial` terminates normally and yields exactly
`n + 1` elements whose `step` fields are `0, 1, …, n` in strictly
increasing order, with the `accumulator` at step `k` equal to `k!`. -/
theorem factorial_stream_spec (n : Int) (h : 0 ≤ n) :
    ∃ steps : List FactorialStep,
      CalculatorServicer.Factorial n = Outcome.reply steps ∧
      steps.length = n.toNat + 1 ∧
      ∀ i (hi : i < steps.length),
        steps[i] = ⟨(i : Int), (i.factorial : Int)⟩ := by
  refine ⟨(List.range (n.toNat + 1)).map
      (fun (k : Nat) => (⟨(k : Int), (k.factorial : Int)⟩ : FactorialStep)),
    ?_, ?_, ?_⟩
  · have hn : ¬n < 0 := by omega
    simp [CalculatorServicer.Factorial, hn, factorialEmit_range]
  · simp
  · intro i hi
    simp

/-- Witness for `factorial_stream_spec` at `n = 3`, with the concrete
stream evaluated. -/
theorem factorial_stream_spec_witness :
    (0 : Int) ≤ 3 ∧
      (∃ steps : List FactorialStep,
        CalculatorServicer.Factorial 3 = Outcome.reply steps ∧
        steps.length = (3 : Int).toNat + 1 ∧
        ∀ i (hi : i < steps.length),
          steps[i] = ⟨(i : Int), (i.factorial : Int)⟩) ∧
      CalculatorServicer.Factorial 3 =
        Outcome.reply [⟨0, 1⟩, ⟨1, 1⟩, ⟨2, 2⟩, ⟨3, 6⟩] :=
  ⟨by decide, factorial_stream_spec 3 (by decide), by decide⟩

/-- Summing the deviations from a constant: `Σ (x - c) = Σ x - n · c`. -/
theorem sum_map_sub_const (l : List ℚ) (c : ℚ) :
    (l.map (fun x => x - c)).sum = l.sum - (l.length : ℚ) * c := by
  induction l with
  | nil => simp
  | cons a l ih =>
    simp only [List.map_cons, List.sum_cons, List.length_cons, ih]
    push_cast
    ring

/-- The deviations from the exact mean sum to zero. -/
theorem sum_dev_mean_eq_zero (l : List ℚ) (h : l ≠ []) :
    (l.map (fun x => x - StatsServicer.st_mean l)).sum = 0 := by
  have hlen : l.length ≠ 0 := fun hc => h (List.eq_nil_of_length_eq_zero hc)
  have hn : (l.length : ℚ) ≠ 0 := Nat.cast_ne_zero.mpr hlen
  rw [sum_map_sub_const, StatsServicer.st_mean]
  field_simp

/-- C6: on a non-empty sample list, `DescriptiveStats` replies exactly
once, with `mean` equal to the arithmetic mean of all samples and
`variance` equal to the sample variance with denominator `count - 1` when
`count > 1`, and exactly `0` when `count = 1`. -/
theorem descriptiveStats_spec (vals : List ℚ) (h : vals ≠ []) :
    ∃ rep : StatsReply,
      StatsServicer.DescriptiveStats vals = Outcome.reply rep ∧
      rep.mean = vals.sum / (vals.length : ℚ) ∧
      (1 < vals.length →
        rep.variance =
          (vals.map (fun v => (v - vals.sum / (vals.length : ℚ)) ^ 2)).sum /
            ((vals.length : ℚ) - 1)) ∧
      (vals.length = 1 → rep.variance = 0) := by
  refine ⟨⟨StatsServicer.st_mean vals,
    if 1 < vals.length then StatsServicer.st_variance vals else 0⟩, ?_, rfl, ?_, ?_⟩
  · simp [StatsServicer.DescriptiveStats, h]
  · intro hlen
    show (if 1 < vals.length then StatsServicer.st_variance vals else 0) = _
    rw [if_pos hlen]
    simp only [StatsServicer.st_variance, StatsServicer.st_sumSquaredDeviations]
    rw [sum_dev_mean_eq_zero vals h]
    simp only [StatsServicer.st_mean]
    norm_num
  · intro hlen
    show (if 1 < vals.length then StatsServicer.st_variance vals else 0) = 0
    rw [if_neg (by omega)]

/-- Witness for `descriptiveStats_spec` on the single sample `[7]`, with
the concrete reply evaluated: mean `7`, variance exactly `0`. -/
theorem descriptiveStats_spec_witness :
    ([7] : List ℚ) ≠ [] ∧
      (∃ rep : StatsReply,
        StatsServicer.DescriptiveStats [7] = Outcome.reply rep ∧
        rep.mean = ([7] : List ℚ).sum / ((([7] : List ℚ).length : Nat) : ℚ) ∧
        (1 < ([7] : List ℚ).length →
          rep.variance =
            (([7] : List ℚ).map
                (fun v => (v - ([7] : List ℚ).sum / ((([7] : List ℚ).length : Nat) : ℚ)) ^ 2)).sum /
              (((([7] : List ℚ).length : Nat) : ℚ) - 1)) ∧
        (([7] : List ℚ).length = 1 → rep.variance = 0)) ∧
      StatsServicer.DescriptiveStats [7] = Outcome.reply ⟨7, 0⟩ :=
  ⟨by decide, descriptiveStats_spec [7] (by decide),
    by norm_num [StatsServicer.DescriptiveStats, StatsServicer.st_mean]⟩
